import Mathlib

/-!
Shallow embedding of the speaker-identification service
(`src/services/speaker-id/app.py`) of the spritesync repository.

Modelling conventions:
- Python floats are idealized as exact reals (`ℝ`) where the source does
  numeric similarity arithmetic, and as exact rationals (`ℚ`) for time
  values and timestamps.
- Embedding vectors are 1-D `List ℝ` (the source flattens any extra
  dimensions before use, so the 1-D case is the one exercised).
- External effects (ffmpeg conversion, torchaudio load, the SpeechBrain
  model's three invocation strategies, file existence) are modelled as
  explicit inputs so every code path of the source is a branch of a pure
  function.
- Python dicts that preserve insertion order are modelled as association
  lists (`List (key × value)`).
-/

/-- A diarized segment, one element of `diarizationResult['segments']`:
a `speaker` label and a `[start, end)` interval in seconds. -/
structure Segment where
  speaker : String
  startSec : ℚ
  endSec : ℚ
deriving DecidableEq

instance : Inhabited Segment := ⟨⟨"", 0, 0⟩⟩

/-- One element of the `identifiedSegments` list of a successful response. -/
structure IdentifiedSegment where
  speakerName : String
  speakerId : String
  startSec : ℚ
  endSec : ℚ
deriving DecidableEq

/-- The JSON body of a `/process` request (`jobId`, `audioFileId`,
`diarizationResult`).  `diarizationResult = none` models an absent or
empty (falsy) dict; `some segs` models a dict whose `segments` list is
`segs`. -/
structure Request where
  jobId : String
  diarizationResult : Option (List Segment)
  audioFileId : String

/-- An extracted waveform slice, identified by its half-open sample range
`(start_sample, end_sample)`. -/
def Seg : Type := ℤ × ℤ

instance : DecidableEq Seg := instDecidableEqProd

/-- The loaded SpeechBrain model's invocation surface: each of the three
strategies used by `create_embedding_from_audio_file` may be absent
(`hasattr` false, modelled by the outer `none`) or may raise / return
nothing (inner `none`). -/
structure ModelAPI where
  encodeBatch : Option (Seg → Option (List ℝ))
  encodeFile : Option (Seg → Option (List ℝ))
  encoderMod : Option (Seg → Option (List ℝ))

/-- Properties of the audio file stored under `UPLOADS_DIR/audioFileId`:
its filename extension, and the sample rate and frame count that
`torchaudio.load` reports for the (possibly ffmpeg-normalized) waveform. -/
structure AudioFile where
  ext : String
  sampleRate : ℕ
  numSamples : ℕ

/-- Ambient state of one `/process` request: the import-level flag
`SpeakerRecognition is not None`, the model returned by
`get_verification_model` (stable within one request), the profiles
loaded by `load_speaker_profiles`, and the behaviour of the external
collaborators (file existence, ffmpeg, torchaudio.load). -/
structure Env where
  speakerRecognitionAvailable : Bool
  model : Option ModelAPI
  profiles : List (String × List ℝ)
  audioExists : Bool
  audio : AudioFile
  ffmpegOk : Bool
  loadOk : Bool

/-- The distinct exits of the `/process` handler: success (HTTP 200),
client errors (400), audio-not-found (404), the low-confidence policy
rejection (400 with a `details` object carrying the matched name, the
confidence and the threshold), and server errors (500). -/
inductive ProcResult where
  | ok (jobId : String) (identifiedSegments : List IdentifiedSegment)
      (speakerMapping : List (String × String)) (processedAt : ℚ)
  | clientError (msg : String)
  | notFoundError (msg : String)
  | lowConfidence (speakerId speakerName : String) (confidence threshold : ℝ)
  | serverError (msg : String)

/-- Source line 15: `CONFIDENCE_THRESHOLD = 0.7`. -/
noncomputable def CONFIDENCE_THRESHOLD : ℝ := 0.7

/-- The `1e-8` denominator floor used by `match_speaker` when
normalizing vectors. -/
noncomputable def EPS : ℝ := 1 / 100000000

/-- Sum of squares of a vector, `np.linalg.norm(v) ** 2`. -/
noncomputable def sumSq (v : List ℝ) : ℝ := (v.map (fun x => x * x)).sum

/-- Dot product of two 1-D vectors, `np.dot` (on equal-length inputs;
the model truncates to the shorter length). -/
noncomputable def dotList (a b : List ℝ) : ℝ := (List.zipWith (fun x y => x * y) a b).sum

/-- Source line 386/394: `v / (np.linalg.norm(v) + 1e-8)`. -/
noncomputable def normalizeVec (v : List ℝ) : List ℝ :=
  v.map (fun x => x / (Real.sqrt (sumSq v) + EPS))

/-- Source line 395: `np.dot(embedding_norm, profile_norm)`. -/
noncomputable def similarity (a b : List ℝ) : ℝ :=
  dotList (normalizeVec a) (normalizeVec b)

/-- The loop of `match_speaker` (source lines 388-399): fold over the
profile mapping in insertion order, keeping `(best_match, best_score)`,
updating only when `similarity > best_score`. -/
noncomputable def matchFold (e : List ℝ) :
    List (String × List ℝ) → Option String × ℝ → Option String × ℝ
  | [], acc => acc
  | (speaker_name, profile_embedding) :: rest, (best_match, best_score) =>
    let sim := similarity e profile_embedding
    if sim > best_score then matchFold e rest (some speaker_name, sim)
    else matchFold e rest (best_match, best_score)

/-- Source lines 372-401, `match_speaker`: returns `(None, 0.0)` when
the embedding is `None` or the profile set is empty, otherwise runs the
best-score fold starting from `(None, 0.0)`. -/
noncomputable def match_speaker (embedding : Option (List ℝ))
    (profiles : List (String × List ℝ)) : Option String × ℝ :=
  match embedding with
  | none => (none, 0)
  | some e => if profiles.isEmpty then (none, 0) else matchFold e profiles (none, 0)

/-- Python `int()` on a rational value: truncation toward zero,
i.e. T-division of the reduced fraction's numerator by its denominator. -/
def pyInt (q : ℚ) : ℤ := q.num / (q.den : ℤ)

/-- Source lines 154-210, `extract_segment_audio`.  Returns the selected
sample range (or `none` on any failure) together with a flag telling
whether a temporary normalized WAV file created by the call still exists
when it returns.  Paths, in source order:
ffmpeg conversion failure (`CalledProcessError`, no output file
produced), `torchaudio.load` failure (generic exception path), the
end-sample clamp, the empty/inverted-range early return (source lines
187-189, which happens before the temp-file cleanup of lines 194-199),
and the success path which deletes the temp file. -/
def extract_segment_audio (audio : AudioFile) (ffmpegOk loadOk : Bool)
    (start_sec end_sec : ℚ) : Option Seg × Bool :=
  let tempCreated := audio.ext ≠ (".wav")
  if tempCreated ∧ ¬ ffmpegOk then (none, false)
  else if ¬ loadOk then (none, tempCreated)
  else
    let start_sample : ℤ := pyInt (start_sec * (audio.sampleRate : ℚ))
    let end_sample : ℤ := pyInt (end_sec * (audio.sampleRate : ℚ))
    let end_clamped : ℤ :=
      if end_sample > (audio.numSamples : ℤ) then (audio.numSamples : ℤ) else end_sample
    if start_sample ≥ end_clamped then (none, tempCreated)
    else (some (start_sample, end_clamped), false)

/-- Source lines 238-347, `create_embedding_from_audio_file`, restricted
to the part after a successful `torchaudio.load`: obtain the model, then
try the three invocation strategies in fixed order (`encode_batch`,
`encode_file`, direct `mods['encoder']` access), accepting the first
non-null result; if all fail, return `None`.  The temporary conversion
file of this function is deleted by its `finally` block on every path,
so no temp-file flag is needed here. -/
def create_embedding_from_audio_file (model : Option ModelAPI) (seg : Seg) :
    Option (List ℝ) :=
  match model with
  | none => none
  | some m =>
    let e1 : Option (List ℝ) :=
      match m.encodeBatch with
      | some f => f seg
      | none => none
    match e1 with
    | some emb => some emb
    | none =>
      let e2 : Option (List ℝ) :=
        match m.encodeFile with
        | some f => f seg
        | none => none
      match e2 with
      | some emb => some emb
      | none =>
        match m.encoderMod with
        | some f => f seg
        | none => none

/-- Source lines 212-236, `compute_speaker_embedding`: `None` when the
recognition class is unavailable, otherwise extract the segment (failing
if extraction failed) and feed the temporary segment WAV to
`create_embedding_from_audio_file`. -/
def compute_speaker_embedding (env : Env) (start_sec end_sec : ℚ) :
    Option (List ℝ) :=
  if ¬ env.speakerRecognitionAvailable then none
  else
    match (extract_segment_audio env.audio env.ffmpegOk env.loadOk start_sec end_sec).1 with
    | none => none
    | some seg => create_embedding_from_audio_file env.model seg

/-- Python `speaker_id[-2:]`: the last two characters (the whole string
when it is shorter). -/
def lastTwo (s : String) : String := s.drop (s.length - 2)

/-- One insertion into the `speaker_groups` dict (source lines 450-454):
append the segment to the existing group of its label, or start a new
group at the end, preserving first-seen key order. -/
def addToGroups (gs : List (String × List Segment)) (l : String) (s : Segment) :
    List (String × List Segment) :=
  match gs with
  | [] => [(l, [s])]
  | (k, ss) :: rest =>
    if k = l then (k, ss ++ [s]) :: rest else (k, ss) :: addToGroups rest l s

/-- Source lines 449-454: partition segments by `speaker` label,
preserving first-seen label order and per-label segment order. -/
def groupByLabel (segs : List Segment) : List (String × List Segment) :=
  segs.foldl (fun gs s => addToGroups gs s.speaker s) []

/-- Outcome of processing one diarized label inside the loop of
`process`: either abort the whole request with a response, or assign a
speaker name to the label. -/
inductive StepResult where
  | fail (r : ProcResult)
  | assign (name : String)

/-- Source lines 481-507, shared by the mock and the model branches: the
`speaker_name is None` check, then the confidence gate
`confidence < CONFIDENCE_THRESHOLD` (a strict comparison), then the
assignment into `speaker_mapping`. -/
noncomputable def gateAndAssign (speakerId : String) (speaker_name : Option String)
    (confidence : ℝ) : StepResult :=
  match speaker_name with
  | none =>
    .fail (.serverError ("Could not identify speaker for diarized speaker " ++ speakerId))
  | some name =>
    if confidence < CONFIDENCE_THRESHOLD then
      .fail (.lowConfidence speakerId name confidence CONFIDENCE_THRESHOLD)
    else .assign name

/-- Source lines 457-507, the body of the per-label loop: take the first
segment of the group as representative; in mock mode
(`SpeakerRecognition is None`) use the fabricated name
`"Speaker_" + speaker_id[-2:]` with confidence `0.85`; otherwise extract
an embedding (aborting with a 500 when it is `None`) and match it
against the profiles; finally run the shared gate-and-assign code. -/
noncomputable def identifyStep (env : Env) (speakerId : String)
    (group_segments : List Segment) : StepResult :=
  let first := group_segments.headI
  if ¬ env.speakerRecognitionAvailable then
    gateAndAssign speakerId (some ("Speaker_" ++ lastTwo speakerId)) 0.85
  else
    match compute_speaker_embedding env first.startSec first.endSec with
    | none =>
      .fail (.serverError ("Failed to extract embedding for diarized speaker " ++ speakerId))
    | some embedding =>
      let r := match_speaker (some embedding) env.profiles
      gateAndAssign speakerId r.1 r.2

/-- The per-label loop of `process` (source lines 457-507): process the
groups in first-seen order, accumulating `speaker_mapping`; the first
failing label aborts the whole request with its response. -/
noncomputable def identifyLoop (env : Env) :
    List (String × List Segment) → List (String × String) →
    Except ProcResult (List (String × String))
  | [], mapping => .ok mapping
  | (speakerId, group_segments) :: rest, mapping =>
    match identifyStep env speakerId group_segments with
    | .fail r => .error r
    | .assign name => identifyLoop env rest (mapping ++ [(speakerId, name)])

/-- Python `speaker_mapping.get(speaker_id, 'Unknown')` (source line 512). -/
def lookupName (mapping : List (String × String)) (sid : String) : String :=
  match mapping with
  | [] => "Unknown"
  | (k, v) :: rest => if k = sid then v else lookupName rest sid

/-- Source lines 403-536, the `/process` handler: input validation in
source order (missing diarization result, missing audio file id, empty
profile set, empty segment list, missing audio file), then the per-label
identification loop, then expansion of the per-label mapping across all
segments, producing `{jobId, identifiedSegments, speakerMapping,
processedAt}` where `processedAt` is the wall-clock time `now` of this
call.  The handler consults no result cache. -/
noncomputable def process (env : Env) (req : Request) (now : ℚ) : ProcResult :=
  match req.diarizationResult with
  | none => .clientError ("diarizationResult is required")
  | some segments =>
    if req.audioFileId = "" then .clientError ("audioFileId is required")
    else if env.profiles.isEmpty then .clientError ("No speaker profiles found")
    else if segments.isEmpty then .clientError ("No segments found in diarization result")
    else if ¬ env.audioExists then
      .notFoundError ("Audio file not found: " ++ req.audioFileId)
    else
      match identifyLoop env (groupByLabel segments) [] with
      | .error r => r
      | .ok mapping =>
        .ok req.jobId
          (segments.map (fun s => ⟨lookupName mapping s.speaker, s.speaker, s.startSec, s.endSec⟩))
          mapping now

/-- What `SpeakerRecognition.from_hparams` would do if invoked at a
given call: return a model, or raise with an error message. -/
inductive LoadOutcome where
  | success (m : ModelAPI)
  | failure (msg : String)

/-- The process-wide globals of the model loader (source lines 20-23):
the import-level class availability, `verification_model`, and
`model_loading_error`. -/
structure ModelGlobals where
  speakerRecognitionAvailable : Bool
  verification_model : Option ModelAPI
  model_loading_error : Option String

/-- Python substring membership `needle in haystack`, char-for-char on
the character lists. -/
def strContains (haystack needle : String) : Bool :=
  (List.range (haystack.data.length + 1)).any
    (fun i => needle.data.isPrefixOf (haystack.data.drop i))

/-- Python `str.lower()` (ASCII-level model). -/
def toLowerStr (s : String) : String := String.mk (s.data.map Char.toLower)

/-- Source lines 86-92: classify the load-failure message into one of
the three stored error strings. -/
def classify_model_error (msg : String) : String :=
  if strContains msg ("401") || strContains (toLowerStr msg) ("authentication") then
    "Model requires HuggingFace authentication. Set HF_TOKEN environment variable."
  else if strContains (toLowerStr msg) ("timeout") || strContains (toLowerStr msg) ("connection") then
    "Failed to download model from HuggingFace. Check internet connection."
  else "Model loading error: " ++ msg

/-- Source lines 55-95, `get_verification_model`, as a transition on the
module globals: return `None` immediately when the class failed to
import; return the cached model when one is loaded; otherwise attempt
`from_hparams` (whose behaviour at this call is the `load` argument),
caching the model and clearing the error on success, or recording the
classified error message and leaving `verification_model = None` on
failure. -/
def get_verification_model (load : LoadOutcome) (g : ModelGlobals) :
    Option ModelAPI × ModelGlobals :=
  if ¬ g.speakerRecognitionAvailable then (none, g)
  else
    match g.verification_model with
    | some m => (some m, g)
    | none =>
      match load with
      | .success m =>
        (some m, { g with verification_model := some m, model_loading_error := none })
      | .failure msg =>
        (none, { g with verification_model := none,
                        model_loading_error := some (classify_model_error msg) })

/-- On-disk content of one record in the profiles directory: a dict with
optional `speaker_name` / `embedding` / `vector` entries (the shape
written by `save_speaker_profile` and read by `load_speaker_profiles`),
a bare vector, or an unreadable record (deserialization raises). -/
inductive ProfileContent where
  | dict (speaker_name : Option String) (embedding : Option (List ℝ)) (vector : Option (List ℝ))
  | rawVector (v : List ℝ)
  | malformed

/-- Source lines 141-144: `profile_data.get('embedding',
profile_data.get('vector'))` for dicts, the value itself otherwise;
`none` for a record whose deserialization raises. -/
def profileEmbedding : ProfileContent → Option (List ℝ)
  | .dict _ e v =>
    match e with
    | some emb => some emb
    | none => v
  | .rawVector v => some v
  | .malformed => none

/-- Python `str.endswith`, byte-for-byte on the character list. -/
def pyEndsWith (s suffix : String) : Bool :=
  suffix.data.isSuffixOf s.data

/-- The stem `os.path.splitext(filename)[0]` of a profile filename for
the two recognized extensions (`splitext` does not split off the
extension when the part before it is empty or consists only of dots). -/
def stemOf (filename : String) : String :=
  if pyEndsWith filename (".pkl") then
    let stem := filename.data.take (filename.data.length - 4)
    if stem.all (fun c => c == '.') then filename else String.mk stem
  else if pyEndsWith filename (".json") then
    let stem := filename.data.take (filename.data.length - 5)
    if stem.all (fun c => c == '.') then filename else String.mk stem
  else filename

/-- Replace the value stored under a key, or append the binding:
writing a file into a directory listing, and equally one `profiles[k] = v`
assignment into an insertion-ordered dict. -/
def upsert {α : Type} : List (String × α) → String → α → List (String × α)
  | [], k, v => [(k, v)]
  | (k1, v1) :: rest, k, v =>
    if k1 = k then (k, v) :: rest else (k1, v1) :: upsert rest k v

/-- The body of the directory-scan loop of `load_speaker_profiles`
(source lines 127-150): a `.pkl` or `.json` file whose record yields an
embedding is stored under the filename stem; everything else is skipped. -/
def loadStep (profiles : List (String × List ℝ)) (file : String × ProfileContent) :
    List (String × List ℝ) :=
  if pyEndsWith file.1 (".pkl") || pyEndsWith file.1 (".json") then
    match profileEmbedding file.2 with
    | some emb => upsert profiles (stemOf file.1) emb
    | none => profiles
  else profiles

/-- Source lines 119-152, `load_speaker_profiles`: scan the directory
listing in order, accumulating the profiles dict. -/
def load_speaker_profiles (fs : List (String × ProfileContent)) :
    List (String × List ℝ) :=
  fs.foldl loadStep []

/-- Source lines 349-370, `save_speaker_profile`, parametrized by the
(external) `werkzeug.utils.secure_filename` sanitizer: write the dict
`{'speaker_name': raw name, 'embedding': vector}` to the file
`secure_filename(name) + ".pkl"`, overwriting any record of that
filename, and return the path (here the filename). -/
def save_speaker_profile (secure_filename : String → String)
    (fs : List (String × ProfileContent)) (speaker_name : String)
    (embedding : List ℝ) : String × List (String × ProfileContent) :=
  let filename := secure_filename speaker_name ++ (".pkl")
  (filename, upsert fs filename (.dict (some speaker_name) (some embedding) none))

/-! ### Concrete instances used by witnesses and counterexamples -/

/-- A model whose only working strategy is `encode_batch`, returning a
fixed embedding. -/
noncomputable def apiEmbed (v : List ℝ) : ModelAPI :=
  ⟨some (fun _ => some v), none, none⟩

/-- A model none of whose three invocation strategies yields an
embedding. -/
def apiAllFail : ModelAPI := ⟨none, none, none⟩

/-- A 10-second mono 16 kHz WAV upload. -/
def audioWav : AudioFile := ⟨".wav", 16000, 160000⟩

/-- A request with a single diarized segment. -/
def reqOne : Request := ⟨"job1", some [⟨"SPEAKER_00", 0, 5⟩], "audio.wav"⟩

/-- Environment in which the extracted embedding `[1e-8]` matches the
single profile `alice ↦ [1]` with a positive similarity well below the
threshold. -/
noncomputable def envLow : Env :=
  ⟨true, some (apiEmbed [EPS]), [("alice", [1])], true, audioWav, true, true⟩

/-- The query value for which the cosine similarity against the profile
`[1]` is exactly `0.7`: the unique positive solution of
`x / ((x + ε) * (1 + ε)) = 7/10`. -/
noncomputable def X0 : ℝ := 7 * EPS * (1 + EPS) / (3 - 7 * EPS)

/-- Environment in which the extracted embedding scores exactly `0.7`
against the single profile. -/
noncomputable def envThr : Env :=
  ⟨true, some (apiEmbed [X0]), [("alice", [1])], true, audioWav, true, true⟩

/-- Environment in which the model class is importable but none of the
three invocation strategies yields an embedding. -/
noncomputable def envNoStrat : Env :=
  ⟨true, some apiAllFail, [("alice", [1])], true, audioWav, true, true⟩

/-- Mock-mode environment: the recognition library failed to import
(`SpeakerRecognition is None`), one profile is enrolled, the audio file
exists. -/
noncomputable def envMock : Env :=
  ⟨false, none, [("p", [1])], true, audioWav, true, true⟩

/-- Segments with two distinct labels, the first label occurring twice. -/
def segsMock : List Segment :=
  [⟨"SPEAKER_00", 0, 5⟩, ⟨"SPEAKER_01", 11/2, 12⟩, ⟨"SPEAKER_00", 13, 14⟩]

/-- A request carrying `segsMock`. -/
def reqMock : Request := ⟨"job1", some segsMock, "audio.wav"⟩

/-- The identified segments of the successful mock run on `segsMock`. -/
def isegsMock : List IdentifiedSegment :=
  [⟨"Speaker_00", "SPEAKER_00", 0, 5⟩, ⟨"Speaker_01", "SPEAKER_01", 11/2, 12⟩,
   ⟨"Speaker_00", "SPEAKER_00", 13, 14⟩]

/-- The speaker mapping of the successful mock run on `segsMock`. -/
def mappingMock : List (String × String) :=
  [("SPEAKER_00", "Speaker_00"), ("SPEAKER_01", "Speaker_01")]

/-- A sanitizer standing in for `werkzeug.utils.secure_filename` in
witnesses: spaces become underscores. -/
def underscoreSanitize (s : String) : String :=
  String.mk (s.data.map (fun c => if c = ' ' then '_' else c))

/-! ### Helper lemmas: the matcher's similarity arithmetic -/

theorem sumSq_nil : sumSq [] = 0 := rfl

theorem sumSq_cons (x : ℝ) (xs : List ℝ) : sumSq (x :: xs) = x * x + sumSq xs := by
  simp [sumSq]

theorem dotList_nil_left (b : List ℝ) : dotList [] b = 0 := rfl

theorem dotList_nil_right (a : List ℝ) : dotList a [] = 0 := by
  cases a <;> rfl

theorem dotList_cons (x y : ℝ) (xs ys : List ℝ) :
    dotList (x :: xs) (y :: ys) = x * y + dotList xs ys := by
  simp [dotList]

theorem sumSq_nonneg (v : List ℝ) : 0 ≤ sumSq v := by
  unfold sumSq
  apply List.sum_nonneg
  intro x hx
  obtain ⟨y, _, rfl⟩ := List.mem_map.mp hx
  exact mul_self_nonneg y

theorem EPS_pos : 0 < EPS := by
  unfold EPS; norm_num

theorem two_mul_dot_le (x y : ℝ) (as bs : List ℝ) :
    2 * (x * y * dotList as bs) ≤ x * x * sumSq bs + y * y * sumSq as := by
  induction as generalizing bs with
  | nil =>
    have h1 := sumSq_nonneg bs
    simp only [dotList_nil_left, sumSq_nil]
    nlinarith [mul_self_nonneg x]
  | cons a as ih =>
    cases bs with
    | nil =>
      have h1 := sumSq_nonneg (a :: as)
      simp only [dotList_nil_right, sumSq_nil]
      nlinarith [mul_self_nonneg y]
    | cons b bs =>
      have h1 := ih bs
      rw [dotList_cons, sumSq_cons, sumSq_cons]
      nlinarith [sq_nonneg (x * b - y * a)]

theorem dotList_sq_le (a b : List ℝ) :
    dotList a b * dotList a b ≤ sumSq a * sumSq b := by
  induction a generalizing b with
  | nil => simp [dotList_nil_left, sumSq_nil]
  | cons x xs ih =>
    cases b with
    | nil => simp [dotList_nil_right, sumSq_nil]
    | cons y ys =>
      have h1 := ih ys
      have h2 := two_mul_dot_le x y xs ys
      have h3 := sumSq_nonneg xs
      have h4 := sumSq_nonneg ys
      rw [dotList_cons, sumSq_cons, sumSq_cons]
      nlinarith

theorem norm_den_pos (v : List ℝ) : 0 < Real.sqrt (sumSq v) + EPS :=
  add_pos_of_nonneg_of_pos (Real.sqrt_nonneg _) EPS_pos

theorem dotList_map_div (a : List ℝ) (c d : ℝ) :
    ∀ b : List ℝ,
      dotList (a.map (fun x => x / c)) (b.map (fun x => x / d)) = dotList a b / (c * d) := by
  induction a with
  | nil => intro b; simp [dotList_nil_left]
  | cons x xs ih =>
    intro b
    cases b with
    | nil => simp [dotList_nil_right]
    | cons y ys =>
      simp only [List.map_cons, dotList_cons, ih ys]
      rw [div_mul_div_comm, div_add_div_same]

theorem similarity_eq (a b : List ℝ) :
    similarity a b =
      dotList a b / ((Real.sqrt (sumSq a) + EPS) * (Real.sqrt (sumSq b) + EPS)) := by
  unfold similarity normalizeVec
  exact dotList_map_div a _ _ b

theorem dotList_le_sqrt_mul_sqrt (a b : List ℝ) :
    dotList a b ≤ Real.sqrt (sumSq a) * Real.sqrt (sumSq b) := by
  calc dotList a b ≤ |dotList a b| := le_abs_self _
    _ = Real.sqrt (dotList a b * dotList a b) := (Real.sqrt_mul_self_eq_abs _).symm
    _ ≤ Real.sqrt (sumSq a * sumSq b) := Real.sqrt_le_sqrt (dotList_sq_le a b)
    _ = Real.sqrt (sumSq a) * Real.sqrt (sumSq b) := Real.sqrt_mul (sumSq_nonneg a) _

theorem similarity_le_one (a b : List ℝ) : similarity a b ≤ 1 := by
  rw [similarity_eq, div_le_one (mul_pos (norm_den_pos a) (norm_den_pos b))]
  have h := dotList_le_sqrt_mul_sqrt a b
  have ha := Real.sqrt_nonneg (sumSq a)
  have hb := Real.sqrt_nonneg (sumSq b)
  have he := EPS_pos
  nlinarith

theorem similarity_nonpos_of_dot_nonpos (a b : List ℝ) (h : dotList a b ≤ 0) :
    similarity a b ≤ 0 := by
  rw [similarity_eq]
  exact div_nonpos_of_nonpos_of_nonneg h (mul_pos (norm_den_pos a) (norm_den_pos b)).le

theorem similarity_pos_of_dot_pos (a b : List ℝ) (h : 0 < dotList a b) :
    0 < similarity a b := by
  rw [similarity_eq]
  exact div_pos h (mul_pos (norm_den_pos a) (norm_den_pos b))

theorem matchFold_spec (e : List ℝ) :
    ∀ (ps : List (String × List ℝ)) (best : Option String) (score : ℝ),
      0 ≤ score → score ≤ 1 →
      matchFold e ps (best, score) = (best, score) ∨
      ∃ nm, nm ∈ ps.map Prod.fst ∧ (matchFold e ps (best, score)).1 = some nm ∧
        score < (matchFold e ps (best, score)).2 ∧ (matchFold e ps (best, score)).2 ≤ 1 := by
  intro ps
  induction ps with
  | nil =>
    intro best score _ _
    left; rfl
  | cons p rest ih =>
    intro best score h0 h1
    obtain ⟨name, pe⟩ := p
    by_cases hc : similarity e pe > score
    · have hrec := ih (some name) (similarity e pe) (h0.trans hc.le) (similarity_le_one e pe)
      have hfold : matchFold e ((name, pe) :: rest) (best, score)
          = matchFold e rest (some name, similarity e pe) := by
        simp only [matchFold]
        rw [if_pos hc]
      rw [hfold]
      rcases hrec with heq | ⟨nm, hmem, h1', h2', h3'⟩
      · right
        refine ⟨name, ?_, ?_, ?_, ?_⟩
        · simp
        · rw [heq]
        · rw [heq]; exact hc
        · rw [heq]; exact similarity_le_one e pe
      · right
        refine ⟨nm, ?_, h1', hc.trans h2', h3'⟩
        simp only [List.map_cons, List.mem_cons]
        exact Or.inr hmem
    · have hfold : matchFold e ((name, pe) :: rest) (best, score)
          = matchFold e rest (best, score) := by
        simp only [matchFold]
        rw [if_neg hc]
      rw [hfold]
      rcases ih best score h0 h1 with heq | ⟨nm, hmem, h1', h2', h3'⟩
      · left; exact heq
      · right
        refine ⟨nm, ?_, h1', h2', h3'⟩
        simp only [List.map_cons, List.mem_cons]
        exact Or.inr hmem

/-- C2: for every query embedding, `match_speaker` returns either
`(none, 0.0)` or a name present in the profile mapping together with a
confidence in `(0, 1]`.  (The claim's stronger statement — that
`(none, 0.0)` occurs only when the mapping is empty — is refuted by
`claim_C2_counterexample`: a non-empty mapping in which no profile has
strictly positive similarity also yields `(none, 0.0)`.) -/
theorem claim_C2_match_result (e : List ℝ) (ps : List (String × List ℝ)) :
    match_speaker (some e) ps = (none, 0) ∨
    ∃ nm, nm ∈ ps.map Prod.fst ∧ (match_speaker (some e) ps).1 = some nm ∧
      0 < (match_speaker (some e) ps).2 ∧ (match_speaker (some e) ps).2 ≤ 1 := by
  by_cases hps : ps.isEmpty
  · left
    simp only [match_speaker]
    rw [if_pos hps]
  · have hms : match_speaker (some e) ps = matchFold e ps (none, 0) := by
      simp only [match_speaker]
      rw [if_neg hps]
    rw [hms]
    rcases matchFold_spec e ps none 0 le_rfl zero_le_one with heq | ⟨nm, hmem, h1, h2, h3⟩
    · left; exact heq
    · right; exact ⟨nm, hmem, h1, h2, h3⟩

/-- C2 counterexample: the profile mapping `{"a" ↦ [-1]}` is non-empty,
yet `match_speaker` on the query `[1]` returns `(none, 0.0)`, because
the cosine similarity is negative and the running best score starts at
`0.0` and is only replaced by strictly larger scores. -/
theorem claim_C2_counterexample :
    match_speaker (some [(1 : ℝ)]) [("a", [(-1 : ℝ)])] = (none, 0) ∧
    ([("a", [(-1 : ℝ)])] : List (String × List ℝ)) ≠ [] := by
  constructor
  · have hdot : dotList [(1 : ℝ)] [(-1 : ℝ)] ≤ 0 := by
      rw [dotList_cons, dotList_nil_left]
      norm_num
    have hsim : ¬ similarity [(1 : ℝ)] [(-1 : ℝ)] > 0 :=
      not_lt.mpr (similarity_nonpos_of_dot_nonpos _ _ hdot)
    simp only [match_speaker, List.isEmpty_cons, matchFold]
    rw [if_neg (by simp), if_neg hsim]
  · simp

/-! ### Helper lemmas: the attribution engine -/

theorem addToGroups_found (k1 : String) (ss : List Segment)
    (rest : List (String × List Segment)) (l : String) (s : Segment) (h : k1 = l) :
    addToGroups ((k1, ss) :: rest) l s = (k1, ss ++ [s]) :: rest := by
  simp [addToGroups, h]

theorem addToGroups_skip (k1 : String) (ss : List Segment)
    (rest : List (String × List Segment)) (l : String) (s : Segment) (h : ¬ k1 = l) :
    addToGroups ((k1, ss) :: rest) l s = (k1, ss) :: addToGroups rest l s := by
  simp [addToGroups, h]

theorem gateAndAssign_fail_shape (sid : String) (nm : Option String) (conf : ℝ)
    (r : ProcResult) (h : gateAndAssign sid nm conf = .fail r) :
    (∃ msg, r = .serverError msg) ∨ ∃ a b c d, r = .lowConfidence a b c d := by
  cases nm with
  | none =>
    simp only [gateAndAssign] at h
    injection h with h2
    exact Or.inl ⟨_, h2.symm⟩
  | some name =>
    simp only [gateAndAssign] at h
    by_cases hc : conf < CONFIDENCE_THRESHOLD
    · rw [if_pos hc] at h
      injection h with h2
      exact Or.inr ⟨sid, name, conf, CONFIDENCE_THRESHOLD, h2.symm⟩
    · rw [if_neg hc] at h
      exact absurd h (by simp)

theorem identifyStep_fail_shape (env : Env) (sid : String) (gs : List Segment)
    (r : ProcResult) (h : identifyStep env sid gs = .fail r) :
    (∃ msg, r = .serverError msg) ∨ ∃ a b c d, r = .lowConfidence a b c d := by
  simp only [identifyStep] at h
  split at h
  · exact gateAndAssign_fail_shape _ _ _ _ h
  · split at h
    · injection h with h2
      exact Or.inl ⟨_, h2.symm⟩
    · exact gateAndAssign_fail_shape _ _ _ _ h

theorem identifyLoop_error_shape (env : Env) :
    ∀ (gs : List (String × List Segment)) (acc : List (String × String)) (r : ProcResult),
      identifyLoop env gs acc = .error r →
      (∃ msg, r = .serverError msg) ∨ ∃ a b c d, r = .lowConfidence a b c d := by
  intro gs
  induction gs with
  | nil =>
    intro acc r h
    simp [identifyLoop] at h
  | cons g rest ih =>
    intro acc r h
    obtain ⟨sid, gsegs⟩ := g
    cases hs : identifyStep env sid gsegs with
    | fail r2 =>
      simp only [identifyLoop, hs] at h
      injection h with h2
      rw [← h2]
      exact identifyStep_fail_shape env sid gsegs r2 hs
    | assign nm =>
      simp only [identifyLoop, hs] at h
      exact ih _ _ h

theorem identifyLoop_ok_keys (env : Env) :
    ∀ (gs : List (String × List Segment)) (acc m : List (String × String)),
      identifyLoop env gs acc = .ok m →
      m.map Prod.fst = acc.map Prod.fst ++ gs.map Prod.fst := by
  intro gs
  induction gs with
  | nil =>
    intro acc m h
    simp only [identifyLoop] at h
    injection h with h2
    simp [h2]
  | cons g rest ih =>
    intro acc m h
    obtain ⟨sid, gsegs⟩ := g
    cases hs : identifyStep env sid gsegs with
    | fail r =>
      simp only [identifyLoop, hs] at h
      exact Except.noConfusion h
    | assign nm =>
      simp only [identifyLoop, hs] at h
      have h2 := ih (acc ++ [(sid, nm)]) m h
      simpa [List.map_append] using h2

theorem identifyLoop_append_fail (env : Env) :
    ∀ (pre : List (String × List Segment)) (acc : List (String × String))
      (sid : String) (gsegs : List Segment) (rest : List (String × List Segment))
      (r : ProcResult),
      (∀ p ∈ pre, ∃ n, identifyStep env p.1 p.2 = .assign n) →
      identifyStep env sid gsegs = .fail r →
      identifyLoop env (pre ++ (sid, gsegs) :: rest) acc = .error r := by
  intro pre
  induction pre with
  | nil =>
    intro acc sid gsegs rest r _ hf
    simp only [List.nil_append, identifyLoop, hf]
  | cons p ps ih =>
    intro acc sid gsegs rest r hpre hf
    obtain ⟨k, ss⟩ := p
    obtain ⟨n, hn⟩ := hpre (k, ss) (List.mem_cons_self _ _)
    simp only [List.cons_append, identifyLoop, hn]
    exact ih _ sid gsegs rest r (fun q hq => hpre q (List.mem_cons_of_mem _ hq)) hf

theorem mem_addToGroups_keys :
    ∀ (gs : List (String × List Segment)) (l : String) (s : Segment) (k : String),
      k ∈ (addToGroups gs l s).map Prod.fst ↔ k ∈ gs.map Prod.fst ∨ k = l := by
  intro gs
  induction gs with
  | nil =>
    intro l s k
    simp [addToGroups]
  | cons g rest ih =>
    intro l s k
    obtain ⟨k1, ss⟩ := g
    by_cases h : k1 = l
    · rw [addToGroups_found k1 ss rest l s h]
      subst h
      simp only [List.map_cons, List.mem_cons]
      tauto
    · rw [addToGroups_skip k1 ss rest l s h]
      simp only [List.map_cons, List.mem_cons, ih]
      constructor
      · rintro (h1 | h2 | h3)
        · exact Or.inl (Or.inl h1)
        · exact Or.inl (Or.inr h2)
        · exact Or.inr h3
      · rintro ((h1 | h2) | h3)
        · exact Or.inl h1
        · exact Or.inr (Or.inl h2)
        · exact Or.inr (Or.inr h3)

theorem mem_foldl_groups (k : String) :
    ∀ (segs : List Segment) (acc : List (String × List Segment)),
      k ∈ (segs.foldl (fun gs s => addToGroups gs s.speaker s) acc).map Prod.fst ↔
        k ∈ acc.map Prod.fst ∨ k ∈ segs.map Segment.speaker := by
  intro segs
  induction segs with
  | nil =>
    intro acc
    simp
  | cons s rest ih =>
    intro acc
    simp only [List.foldl_cons, List.map_cons, List.mem_cons]
    rw [ih, mem_addToGroups_keys]
    tauto

theorem mem_groupByLabel_keys (segs : List Segment) (k : String) :
    k ∈ (groupByLabel segs).map Prod.fst ↔ k ∈ segs.map Segment.speaker := by
  unfold groupByLabel
  rw [mem_foldl_groups]
  simp

theorem process_ok_inv (env : Env) (req : Request) (now : ℚ)
    (segments : List Segment) (jid : String) (isegs : List IdentifiedSegment)
    (mapping : List (String × String)) (t : ℚ)
    (hd : req.diarizationResult = some segments)
    (h : process env req now = .ok jid isegs mapping t) :
    identifyLoop env (groupByLabel segments) [] = .ok mapping ∧
    jid = req.jobId ∧ t = now ∧
    isegs = segments.map
      (fun s => ⟨lookupName mapping s.speaker, s.speaker, s.startSec, s.endSec⟩) ∧
    ¬ req.audioFileId = "" ∧ ¬ env.profiles.isEmpty = true ∧
    ¬ segments.isEmpty = true ∧ env.audioExists = true := by
  simp only [process, hd] at h
  by_cases h1 : req.audioFileId = ""
  · rw [if_pos h1] at h
    exact ProcResult.noConfusion h
  · rw [if_neg h1] at h
    by_cases h2 : env.profiles.isEmpty = true
    · rw [if_pos h2] at h
      exact ProcResult.noConfusion h
    · rw [if_neg h2] at h
      by_cases h3 : segments.isEmpty = true
      · rw [if_pos h3] at h
        exact ProcResult.noConfusion h
      · rw [if_neg h3] at h
        by_cases h4 : env.audioExists = true
        · rw [if_neg (not_not_intro h4)] at h
          cases hl : identifyLoop env (groupByLabel segments) [] with
          | error r =>
            rw [hl] at h
            simp only [] at h
            rcases identifyLoop_error_shape env _ _ _ hl with ⟨msg, hr⟩ | ⟨a, b, c, d, hr⟩
            · rw [hr] at h
              exact ProcResult.noConfusion h
            · rw [hr] at h
              exact ProcResult.noConfusion h
          | ok m =>
            rw [hl] at h
            simp only [] at h
            injection h with hj hi hm ht
            subst hm
            exact ⟨rfl, hj.symm, ht.symm, hi.symm, h1, h2, h3, h4⟩
        · rw [if_pos h4] at h
          exact ProcResult.noConfusion h

theorem process_ok_build (env : Env) (req : Request) (now : ℚ)
    (segments : List Segment) (mapping : List (String × String))
    (hd : req.diarizationResult = some segments)
    (h1 : ¬ req.audioFileId = "") (h2 : ¬ env.profiles.isEmpty = true)
    (h3 : ¬ segments.isEmpty = true) (h4 : env.audioExists = true)
    (hl : identifyLoop env (groupByLabel segments) [] = .ok mapping) :
    process env req now = .ok req.jobId
      (segments.map
        (fun s => ⟨lookupName mapping s.speaker, s.speaker, s.startSec, s.endSec⟩))
      mapping now := by
  have h5 : ¬ (¬ env.audioExists = true) := by simp [h4]
  simp only [process, hd, if_neg h1, if_neg h2, if_neg h3, if_neg h5, hl]

/-! ### Helper lemmas: concrete evaluations -/

theorem sumSq_one : sumSq [(1 : ℝ)] = 1 := by
  rw [sumSq_cons, sumSq_nil]; ring

theorem simLow_eq : similarity [EPS] [(1 : ℝ)] = EPS / ((EPS + EPS) * (1 + EPS)) := by
  have hs1 : sumSq [EPS] = EPS * EPS := by rw [sumSq_cons, sumSq_nil, add_zero]
  have hd : dotList [EPS] [(1 : ℝ)] = EPS := by
    rw [dotList_cons, dotList_nil_left]; ring
  rw [similarity_eq, hs1, sumSq_one, hd, Real.sqrt_mul_self EPS_pos.le, Real.sqrt_one]

theorem simLow_pos : 0 < similarity [EPS] [(1 : ℝ)] := by
  rw [simLow_eq]
  have he := EPS_pos
  apply div_pos he
  nlinarith

theorem simLow_lt : similarity [EPS] [(1 : ℝ)] < CONFIDENCE_THRESHOLD := by
  rw [simLow_eq]
  unfold EPS CONFIDENCE_THRESHOLD
  rw [div_lt_iff (by norm_num)]
  norm_num

theorem matchLow : match_speaker (some [EPS]) [("alice", [(1 : ℝ)])]
    = (some "alice", similarity [EPS] [(1 : ℝ)]) := by
  simp only [match_speaker]
  rw [if_neg (by simp)]
  simp only [matchFold]
  rw [if_pos simLow_pos]

theorem X0_pos : 0 < X0 := by
  unfold X0 EPS
  norm_num

theorem simThr_eq : similarity [X0] [(1 : ℝ)] = CONFIDENCE_THRESHOLD := by
  have hs1 : sumSq [X0] = X0 * X0 := by rw [sumSq_cons, sumSq_nil, add_zero]
  have hd : dotList [X0] [(1 : ℝ)] = X0 := by
    rw [dotList_cons, dotList_nil_left]; ring
  rw [similarity_eq, hs1, sumSq_one, hd, Real.sqrt_mul_self X0_pos.le, Real.sqrt_one]
  unfold X0 EPS CONFIDENCE_THRESHOLD
  rw [div_eq_iff (by norm_num)]
  norm_num

theorem matchThr : match_speaker (some [X0]) [("alice", [(1 : ℝ)])]
    = (some "alice", CONFIDENCE_THRESHOLD) := by
  have hpos : similarity [X0] [(1 : ℝ)] > 0 := by
    rw [simThr_eq]
    unfold CONFIDENCE_THRESHOLD
    norm_num
  simp only [match_speaker]
  rw [if_neg (by simp)]
  simp only [matchFold]
  rw [if_pos hpos, simThr_eq]

theorem mockGate : ¬ ((0.85 : ℝ) < CONFIDENCE_THRESHOLD) := by
  unfold CONFIDENCE_THRESHOLD
  norm_num

theorem identifyStepMockA :
    identifyStep envMock "SPEAKER_00" [⟨"SPEAKER_00", 0, 5⟩, ⟨"SPEAKER_00", 13, 14⟩]
      = .assign "Speaker_00" := by
  simp only [identifyStep, gateAndAssign]
  rw [if_pos (by simp [envMock]), if_neg mockGate]
  rfl

theorem identifyStepMockB :
    identifyStep envMock "SPEAKER_01" [⟨"SPEAKER_01", 11/2, 12⟩]
      = .assign "Speaker_01" := by
  simp only [identifyStep, gateAndAssign]
  rw [if_pos (by simp [envMock]), if_neg mockGate]
  rfl

theorem processMock_eval (t : ℚ) :
    process envMock reqMock t = .ok "job1" isegsMock mappingMock t := by
  have hg : groupByLabel segsMock =
      [("SPEAKER_00", [⟨"SPEAKER_00", 0, 5⟩, ⟨"SPEAKER_00", 13, 14⟩]),
       ("SPEAKER_01", [⟨"SPEAKER_01", 11/2, 12⟩])] := by rfl
  have hloop : identifyLoop envMock (groupByLabel segsMock) [] = .ok mappingMock := by
    rw [hg]
    simp only [identifyLoop, identifyStepMockA, identifyStepMockB]
    rfl
  have hb := process_ok_build envMock reqMock t segsMock mappingMock rfl
    (by decide) (by decide) (by decide) rfl hloop
  exact hb.trans (by rfl)

/-! ### Claim theorems -/

/-- C1: once processing reaches a label whose best-match confidence is
strictly below the 0.7 threshold (all earlier labels having been
assigned), the entire request fails with the low-confidence error
carrying the matched name, the confidence and the threshold, and no
success response (hence no partial speaker mapping) is returned. -/
theorem claim_C1_low_confidence_aborts (env : Env) (req : Request) (now : ℚ)
    (segments : List Segment) (pre rest : List (String × List Segment))
    (sid nm : String) (gsegs : List Segment) (emb : List ℝ) (c : ℝ)
    (hd : req.diarizationResult = some segments)
    (h1 : ¬ req.audioFileId = "") (h2 : ¬ env.profiles.isEmpty = true)
    (h3 : ¬ segments.isEmpty = true) (h4 : env.audioExists = true)
    (hg : groupByLabel segments = pre ++ (sid, gsegs) :: rest)
    (hpre : ∀ p ∈ pre, ∃ n, identifyStep env p.1 p.2 = .assign n)
    (havail : env.speakerRecognitionAvailable = true)
    (hemb : compute_speaker_embedding env gsegs.headI.startSec gsegs.headI.endSec = some emb)
    (hmatch : match_speaker (some emb) env.profiles = (some nm, c))
    (hc : c < CONFIDENCE_THRESHOLD) :
    process env req now = .lowConfidence sid nm c CONFIDENCE_THRESHOLD ∧
    ∀ (jid : String) (isegs : List IdentifiedSegment)
      (m : List (String × String)) (t : ℚ),
      process env req now ≠ .ok jid isegs m t := by
  have hstep : identifyStep env sid gsegs
      = .fail (.lowConfidence sid nm c CONFIDENCE_THRESHOLD) := by
    simp only [identifyStep, if_neg (not_not_intro havail), hemb, hmatch, gateAndAssign]
    rw [if_pos hc]
  have hloop := identifyLoop_append_fail env pre [] sid gsegs rest _ hpre hstep
  rw [← hg] at hloop
  have hp : process env req now = .lowConfidence sid nm c CONFIDENCE_THRESHOLD := by
    simp only [process, hd, if_neg h1, if_neg h2, if_neg h3,
      if_neg (not_not_intro h4), hloop]
  refine ⟨hp, fun jid isegs m t hok => ?_⟩
  rw [hp] at hok
  exact ProcResult.noConfusion hok

/-- C1 witness: a concrete request in which the single label's embedding
`[1e-8]` matches the profile `alice` with similarity `1/(2(1+1e-8))`,
which is below the threshold; the request fails with the low-confidence
error. -/
theorem claim_C1_witness :
    process envLow reqOne 0 =
      .lowConfidence "SPEAKER_00" "alice" (similarity [EPS] [(1 : ℝ)]) CONFIDENCE_THRESHOLD ∧
    ∀ (jid : String) (isegs : List IdentifiedSegment)
      (m : List (String × String)) (t : ℚ),
      process envLow reqOne 0 ≠ .ok jid isegs m t :=
  claim_C1_low_confidence_aborts envLow reqOne 0 [⟨"SPEAKER_00", 0, 5⟩] [] []
    "SPEAKER_00" "alice" [⟨"SPEAKER_00", 0, 5⟩] [EPS] (similarity [EPS] [(1 : ℝ)])
    rfl (by decide) (by decide) (by decide) rfl rfl (by simp) rfl
    (by with_unfolding_all rfl) matchLow simLow_lt

/-- C3: for every successful attribution request, the set of keys of the
returned `speakerMapping` equals the set of distinct `speaker` labels of
the input segments. -/
theorem claim_C3_mapping_keys (env : Env) (req : Request) (now : ℚ)
    (segments : List Segment) (jid : String) (isegs : List IdentifiedSegment)
    (mapping : List (String × String)) (t : ℚ)
    (hd : req.diarizationResult = some segments)
    (h : process env req now = .ok jid isegs mapping t) :
    ∀ l, l ∈ mapping.map Prod.fst ↔ l ∈ segments.map Segment.speaker := by
  obtain ⟨hl, -, -, -, -, -, -, -⟩ :=
    process_ok_inv env req now segments jid isegs mapping t hd h
  intro l
  have hk := identifyLoop_ok_keys env (groupByLabel segments) [] mapping hl
  rw [hk]
  simp only [List.map_nil, List.nil_append]
  exact mem_groupByLabel_keys segments l

/-- C3 witness: in the concrete successful mock run, the label
`SPEAKER_00` is a key of the output mapping and a label of the input
segments. -/
theorem claim_C3_witness :
    "SPEAKER_00" ∈ mappingMock.map Prod.fst ↔
      "SPEAKER_00" ∈ segsMock.map Segment.speaker :=
  claim_C3_mapping_keys envMock reqMock 0 segsMock "job1" isegsMock mappingMock 0
    rfl (processMock_eval 0) "SPEAKER_00"

/-- C4 counterexample: with the recognition library unavailable
(`SpeakerRecognition is None`), the engine does not fail with a server
error; it returns a successful response whose speaker mapping
(`Speaker_00`, `Speaker_01`) was fabricated by mock mode, not computed
by any embedding model. -/
theorem claim_C4_counterexample :
    envMock.speakerRecognitionAvailable = false ∧
    process envMock reqMock 0 = .ok "job1" isegsMock mappingMock 0 :=
  ⟨rfl, processMock_eval 0⟩

/-- C4 (amended): when the recognition library did import but extraction
yields no embedding for the first label (model absent or all three
invocation strategies failing), the request fails with a server error
naming that label. -/
theorem claim_C4_extraction_failure (env : Env) (req : Request) (now : ℚ)
    (segments : List Segment) (sid : String) (gsegs : List Segment)
    (rest : List (String × List Segment))
    (hd : req.diarizationResult = some segments)
    (h1 : ¬ req.audioFileId = "") (h2 : ¬ env.profiles.isEmpty = true)
    (h3 : ¬ segments.isEmpty = true) (h4 : env.audioExists = true)
    (havail : env.speakerRecognitionAvailable = true)
    (hg : groupByLabel segments = (sid, gsegs) :: rest)
    (hemb : compute_speaker_embedding env gsegs.headI.startSec gsegs.headI.endSec = none) :
    process env req now =
      .serverError ("Failed to extract embedding for diarized speaker " ++ sid) := by
  have hstep : identifyStep env sid gsegs
      = .fail (.serverError ("Failed to extract embedding for diarized speaker " ++ sid)) := by
    simp only [identifyStep, if_neg (not_not_intro havail), hemb]
  have hloop := identifyLoop_append_fail env [] [] sid gsegs rest _ (by simp) hstep
  rw [List.nil_append] at hloop
  rw [← hg] at hloop
  simp only [process, hd, if_neg h1, if_neg h2, if_neg h3,
    if_neg (not_not_intro h4), hloop]

/-- C4 witness: with a loaded model none of whose three invocation
strategies produces an embedding, the concrete request fails with the
server error for its first label. -/
theorem claim_C4_witness :
    process envNoStrat reqOne 0 =
      .serverError ("Failed to extract embedding for diarized speaker " ++ "SPEAKER_00") :=
  claim_C4_extraction_failure envNoStrat reqOne 0 [⟨"SPEAKER_00", 0, 5⟩]
    "SPEAKER_00" [⟨"SPEAKER_00", 0, 5⟩] []
    rfl (by decide) (by decide) (by decide) rfl rfl rfl (by with_unfolding_all rfl)

/-- C5 counterexample: the engine consults no cache, so resubmitting the
identical request at a later wall-clock time yields a response that is
not identical to the first one — `processedAt` differs. -/
theorem claim_C5_counterexample :
    process envMock reqMock 0 ≠ process envMock reqMock 1 := by
  rw [processMock_eval 0, processMock_eval 1]
  intro h
  injection h with hj hi hm ht
  exact absurd ht (by norm_num)

/-- C5 (amended): there is no result cache; a second identical
submission re-runs the whole pipeline and returns the same `jobId`,
`identifiedSegments` and `speakerMapping`, but its `processedAt` is the
time of the second call, so the two responses differ whenever the times
differ. -/
theorem claim_C5_recompute_new_timestamp (env : Env) (req : Request)
    (t1 t2 : ℚ) (segments : List Segment) (jid : String)
    (isegs : List IdentifiedSegment) (mapping : List (String × String)) (t : ℚ)
    (hd : req.diarizationResult = some segments)
    (h : process env req t1 = .ok jid isegs mapping t) :
    t = t1 ∧ process env req t2 = .ok jid isegs mapping t2 := by
  obtain ⟨hl, hj, ht, hi, h1, h2, h3, h4⟩ :=
    process_ok_inv env req t1 segments jid isegs mapping t hd h
  refine ⟨ht, ?_⟩
  rw [hj, hi]
  exact process_ok_build env req t2 segments mapping hd h1 h2 h3 h4 hl

/-- C5 witness: instantiating the amended statement on the concrete mock
run, resubmitted at time 5. -/
theorem claim_C5_witness :
    (0 : ℚ) = 0 ∧ process envMock reqMock 5 = .ok "job1" isegsMock mappingMock 5 :=
  claim_C5_recompute_new_timestamp envMock reqMock 0 5 segsMock "job1"
    isegsMock mappingMock 0 rfl (processMock_eval 0)

/-- C9: the confidence gate is a strict comparison, so a label whose
best-match confidence equals the threshold 0.7 exactly is assigned its
matched name rather than rejected. -/
theorem claim_C9_threshold_equality_passes (env : Env) (sid : String)
    (gsegs : List Segment) (emb : List ℝ) (nm : String)
    (havail : env.speakerRecognitionAvailable = true)
    (hemb : compute_speaker_embedding env gsegs.headI.startSec gsegs.headI.endSec = some emb)
    (hmatch : match_speaker (some emb) env.profiles = (some nm, CONFIDENCE_THRESHOLD)) :
    identifyStep env sid gsegs = .assign nm := by
  simp only [identifyStep, if_neg (not_not_intro havail), hemb, hmatch, gateAndAssign]
  rw [if_neg (lt_irrefl CONFIDENCE_THRESHOLD)]

/-- C9 witness: the query `[x0]` with
`x0 = 7ε(1+ε)/(3-7ε)` scores exactly `0.7` against the profile
`alice ↦ [1]`, and the label is assigned, not rejected. -/
theorem claim_C9_witness :
    identifyStep envThr "SPEAKER_00" [⟨"SPEAKER_00", 0, 5⟩] = .assign "alice" :=
  claim_C9_threshold_equality_passes envThr "SPEAKER_00" [⟨"SPEAKER_00", 0, 5⟩]
    [X0] "alice" rfl (by with_unfolding_all rfl) matchThr

/-! ### Helper lemmas: the profile store -/

theorem pyEndsWith_append (s t : String) : pyEndsWith (s ++ t) t = true := by
  simp only [pyEndsWith, String.data_append, List.isSuffixOf_iff_suffix]
  exact List.suffix_append _ _

theorem stemOf_append_pkl (s : String)
    (h : s.data.all (fun c => c == '.') = false) :
    stemOf (s ++ (".pkl")) = s := by
  have htake : (s ++ (".pkl")).data.take ((s ++ (".pkl")).data.length - 4) = s.data := by
    rw [String.data_append, List.length_append]
    have h4 : (".pkl" : String).data.length = 4 := rfl
    rw [h4, Nat.add_sub_cancel]
    exact List.take_left _ _
  simp only [stemOf]
  rw [if_pos (pyEndsWith_append s (".pkl")), htake, h]
  rw [if_neg (by simp)]

theorem mem_keys_upsert {α : Type} :
    ∀ (m : List (String × α)) (k : String) (v : α) (k1 : String),
      k1 ∈ (upsert m k v).map Prod.fst → k1 ∈ m.map Prod.fst ∨ k1 = k := by
  intro m
  induction m with
  | nil =>
    intro k v k1 h
    simp [upsert] at h
    exact Or.inr h
  | cons p rest ih =>
    intro k v k1 h
    obtain ⟨k0, v0⟩ := p
    by_cases hk : k0 = k
    · rw [upsert, if_pos hk] at h
      simp only [List.map_cons, List.mem_cons] at h
      rcases h with h | h
      · exact Or.inr h
      · exact Or.inl (by simp [h])
    · rw [upsert, if_neg hk] at h
      simp only [List.map_cons, List.mem_cons] at h ⊢
      rcases h with h | h
      · exact Or.inl (Or.inl h)
      · rcases ih k v k1 h with h2 | h2
        · exact Or.inl (Or.inr h2)
        · exact Or.inr h2

theorem upsert_not_mem {α : Type} :
    ∀ (m : List (String × α)) (k : String) (v : α),
      k ∉ m.map Prod.fst → upsert m k v = m ++ [(k, v)] := by
  intro m
  induction m with
  | nil =>
    intro k v _
    rfl
  | cons p rest ih =>
    intro k v h
    obtain ⟨k0, v0⟩ := p
    simp only [List.map_cons, List.mem_cons, not_or] at h
    rw [upsert, if_neg (fun he => h.1 he.symm), ih k v h.2]
    rfl

theorem load_foldl_avoid (k : String) :
    ∀ (fs : List (String × ProfileContent)) (acc : List (String × List ℝ)),
      (∀ fn ∈ fs.map Prod.fst, stemOf fn ≠ k) → k ∉ acc.map Prod.fst →
      k ∉ (fs.foldl loadStep acc).map Prod.fst := by
  intro fs
  induction fs with
  | nil =>
    intro acc _ hacc
    exact hacc
  | cons f rest ih =>
    intro acc hs hacc
    rw [List.foldl_cons]
    apply ih
    · intro fn hfn
      exact hs fn (by simp [hfn])
    · intro hk
      simp only [loadStep] at hk
      by_cases hext : (pyEndsWith f.1 (".pkl") || pyEndsWith f.1 (".json")) = true
      · rw [if_pos hext] at hk
        cases hpe : profileEmbedding f.2 with
        | some emb =>
          rw [hpe] at hk
          rcases mem_keys_upsert acc (stemOf f.1) emb k hk with h | h
          · exact hacc h
          · exact hs f.1 (by simp) h.symm
        | none =>
          rw [hpe] at hk
          exact hacc hk
      · rw [if_neg hext] at hk
        exact hacc hk

/-! ### Claim theorems (continued) -/

/-- C6 counterexample: after a failed load attempt (error recorded), a
subsequent call does not surface the cached failure: it re-attempts the
load, and when that attempt succeeds it returns a model.  The failure is
not sticky. -/
theorem claim_C6_counterexample :
    (get_verification_model (.failure "connection refused") ⟨true, none, none⟩).1 = none ∧
    (get_verification_model (.failure "connection refused") ⟨true, none, none⟩).2.model_loading_error
      = some "Failed to download model from HuggingFace. Check internet connection." ∧
    (get_verification_model (.success apiAllFail)
        (get_verification_model (.failure "connection refused") ⟨true, none, none⟩).2).1
      = some apiAllFail := by
  exact ⟨rfl, rfl, rfl⟩

/-- C6 (amended): only the import-time failure is sticky — when the
recognition class is unavailable every call returns no model without
attempting a load.  A failed `from_hparams` attempt records its
classified error message, but leaves the cached model empty, so the next
call re-attempts the load (and returns a model if that attempt
succeeds) instead of surfacing the recorded failure. -/
theorem claim_C6_load_failure_not_sticky :
    (∀ (g : ModelGlobals) (load : LoadOutcome),
      g.speakerRecognitionAvailable = false →
      get_verification_model load g = (none, g)) ∧
    (∀ (g : ModelGlobals) (msg : String),
      g.speakerRecognitionAvailable = true → g.verification_model = none →
      (get_verification_model (.failure msg) g).1 = none ∧
      (get_verification_model (.failure msg) g).2.verification_model = none ∧
      (get_verification_model (.failure msg) g).2.model_loading_error
        = some (classify_model_error msg) ∧
      ∀ (m : ModelAPI),
        (get_verification_model (.success m)
          (get_verification_model (.failure msg) g).2).1 = some m) := by
  constructor
  · intro g load hg
    simp [get_verification_model, hg]
  · intro g msg hg hm
    have h2 : get_verification_model (.failure msg) g
        = (none, { g with verification_model := none,
                          model_loading_error := some (classify_model_error msg) }) := by
      simp [get_verification_model, hg, hm]
    refine ⟨by rw [h2], by rw [h2], by rw [h2], ?_⟩
    intro m
    rw [h2]
    simp [get_verification_model, hg]

/-- C6 witness: the import-failure branch is sticky at a concrete state,
and after a concrete failed attempt the next call loads a model. -/
theorem claim_C6_witness :
    get_verification_model (.success apiAllFail) ⟨false, none, none⟩
      = (none, ⟨false, none, none⟩) ∧
    (get_verification_model (.success apiAllFail)
        (get_verification_model (.failure "boom") ⟨true, none, none⟩).2).1
      = some apiAllFail :=
  ⟨claim_C6_load_failure_not_sticky.1 ⟨false, none, none⟩ (.success apiAllFail) rfl,
   (claim_C6_load_failure_not_sticky.2 ⟨true, none, none⟩ "boom" rfl rfl).2.2.2 apiAllFail⟩

/-- C7 (bug exhibited): extracting from a non-WAV file with a
clamped-empty interval (`start == end == 1s`) returns through the
invalid-range early return of source lines 187-189, which precedes the
temp-file cleanup of lines 194-199 — the temporary normalized WAV is
still on disk when the call returns (second component `true`).  On the
success path the temp file is deleted (second component `false`). -/
theorem claim_C7_temp_leak :
    extract_segment_audio ⟨".mp3", 16000, 160000⟩ true true 1 1 = (none, true) ∧
    extract_segment_audio ⟨".mp3", 16000, 160000⟩ true true 0 5 = (some (0, 80000), false) :=
  ⟨by with_unfolding_all rfl, by with_unfolding_all rfl⟩

/-- C8: with the external collaborators succeeding, an end sample past
the waveform length is clamped to the length, and extraction proceeds
exactly when the start sample is below the clamped end; otherwise (the
empty or inverted interval, including `start == end`) it returns no
segment. -/
theorem claim_C8_clamp_and_empty (audio : AudioFile) (ffmpegOk loadOk : Bool)
    (s e : ℚ)
    (hpath : audio.ext = (".wav") ∨ ffmpegOk = true)
    (hload : loadOk = true) :
    (pyInt (s * (audio.sampleRate : ℚ)) <
        min (pyInt (e * (audio.sampleRate : ℚ))) (audio.numSamples : ℤ) →
      (extract_segment_audio audio ffmpegOk loadOk s e).1 =
        some (pyInt (s * (audio.sampleRate : ℚ)),
          min (pyInt (e * (audio.sampleRate : ℚ))) (audio.numSamples : ℤ))) ∧
    (min (pyInt (e * (audio.sampleRate : ℚ))) (audio.numSamples : ℤ) ≤
        pyInt (s * (audio.sampleRate : ℚ)) →
      (extract_segment_audio audio ffmpegOk loadOk s e).1 = none) := by
  have hcond1 : ¬ ((audio.ext ≠ (".wav")) ∧ ¬ ffmpegOk = true) := by
    rcases hpath with h | h
    · simp [h]
    · simp [h]
  have hmin : (if pyInt (e * (audio.sampleRate : ℚ)) > (audio.numSamples : ℤ)
        then (audio.numSamples : ℤ) else pyInt (e * (audio.sampleRate : ℚ)))
      = min (pyInt (e * (audio.sampleRate : ℚ))) (audio.numSamples : ℤ) := by
    split <;> omega
  constructor
  · intro hlt
    simp only [extract_segment_audio, if_neg hcond1, hload]
    rw [if_neg (by simp), hmin, if_neg (not_le.mpr hlt)]
  · intro hge
    simp only [extract_segment_audio, if_neg hcond1, hload]
    rw [if_neg (by simp), hmin, if_pos hge]

/-- C8 witness: on a 10-second 16 kHz WAV, a requested end of 20s is
clamped to the 160000-sample duration and extraction proceeds, while the
interval `[1, 1)` is empty after conversion to samples and extraction
returns no segment. -/
theorem claim_C8_witness :
    (extract_segment_audio audioWav true true 0 20).1 = some (0, 160000) ∧
    (extract_segment_audio audioWav true true 1 1).1 = none := by
  have e0 : pyInt (0 * (audioWav.sampleRate : ℚ)) = 0 := by with_unfolding_all rfl
  have e20 : pyInt (20 * (audioWav.sampleRate : ℚ)) = 320000 := by with_unfolding_all rfl
  have e1 : pyInt (1 * (audioWav.sampleRate : ℚ)) = 16000 := by with_unfolding_all rfl
  have eN : (audioWav.numSamples : ℤ) = 160000 := rfl
  constructor
  · have h := (claim_C8_clamp_and_empty audioWav true true 0 20 (Or.inl rfl) rfl).1
    rw [e0, e20, eN] at h
    have hm : min (320000 : ℤ) 160000 = 160000 := by omega
    rw [hm] at h
    exact h (by omega)
  · have h := (claim_C8_clamp_and_empty audioWav true true 1 1 (Or.inl rfl) rfl).2
    rw [e1, eN] at h
    have hm : min (16000 : ℤ) 160000 = 16000 := by omega
    rw [hm] at h
    exact h (by omega)

/-- C10: profile keys are the sanitized filename stems.  Saving an
enrollment whose display name is altered by sanitization and reloading
the store yields a profile keyed by the sanitized name carrying the
saved embedding, and the raw display name is not a key — so matching and
attribution (which report profile keys) report the sanitized name. -/
theorem claim_C10_sanitized_stems (secure_filename : String → String)
    (fs : List (String × ProfileContent)) (name : String) (emb : List ℝ)
    (hdots : (secure_filename name).data.all (fun c => c == '.') = false)
    (hfresh : ∀ fn ∈ fs.map Prod.fst, stemOf fn ≠ secure_filename name)
    (hnoname : ∀ fn ∈ fs.map Prod.fst, stemOf fn ≠ name)
    (hne : secure_filename name ≠ name) :
    (secure_filename name, emb) ∈
      load_speaker_profiles (save_speaker_profile secure_filename fs name emb).2 ∧
    name ∉ (load_speaker_profiles
      (save_speaker_profile secure_filename fs name emb).2).map Prod.fst := by
  have hstem : stemOf (secure_filename name ++ (".pkl")) = secure_filename name :=
    stemOf_append_pkl _ hdots
  have hnewnotin : (secure_filename name ++ (".pkl")) ∉ fs.map Prod.fst := by
    intro hin
    exact hfresh _ hin hstem
  have hsave : (save_speaker_profile secure_filename fs name emb).2
      = fs ++ [(secure_filename name ++ (".pkl"), .dict (some name) (some emb) none)] := by
    simp only [save_speaker_profile]
    exact upsert_not_mem fs _ _ hnewnotin
  have hload : load_speaker_profiles (save_speaker_profile secure_filename fs name emb).2
      = upsert (fs.foldl loadStep []) (secure_filename name) emb := by
    rw [hsave]
    unfold load_speaker_profiles
    rw [List.foldl_append, List.foldl_cons, List.foldl_nil]
    simp only [loadStep]
    rw [if_pos (show (pyEndsWith (secure_filename name ++ (".pkl")) (".pkl") ||
        pyEndsWith (secure_filename name ++ (".pkl")) (".json")) = true by
      simp [pyEndsWith_append])]
    simp only [profileEmbedding]
    rw [hstem]
  have hout : (secure_filename name) ∉ (fs.foldl loadStep []).map Prod.fst :=
    load_foldl_avoid _ fs [] hfresh (by simp)
  have hups : upsert (fs.foldl loadStep []) (secure_filename name) emb
      = (fs.foldl loadStep []) ++ [(secure_filename name, emb)] :=
    upsert_not_mem _ _ _ hout
  constructor
  · rw [hload, hups]
    simp
  · rw [hload, hups]
    intro hk
    rw [List.map_append] at hk
    rcases List.mem_append.mp hk with h | h
    · exact load_foldl_avoid name fs [] hnoname (by simp) h
    · simp at h
      exact hne h.symm

/-- C10 witness: enrolling the display name containing a space under a
sanitizer that replaces spaces by underscores makes the loaded profile
key the sanitized stem, and the raw display name is absent. -/
theorem claim_C10_witness :
    (underscoreSanitize "a b", [(1 : ℝ)]) ∈
      load_speaker_profiles (save_speaker_profile underscoreSanitize [] "a b" [(1 : ℝ)]).2 ∧
    "a b" ∉ (load_speaker_profiles
      (save_speaker_profile underscoreSanitize [] "a b" [(1 : ℝ)]).2).map Prod.fst :=
  claim_C10_sanitized_stems underscoreSanitize [] "a b" [(1 : ℝ)]
    (by decide) (by simp) (by simp) (by decide)
